import Mathlib

/-!
Verification of the MCP Automation Bridge request-dispatch layer.

This file gives a shallow embedding of the dispatch, deferral and drain
mechanism of the Unreal plugin subsystem
(McpAutomationBridgeSubsystem.cpp) and proves the documented invariants
about it: state-gated processing, at-most-once dispatch, FIFO drain,
no-drop conservation, unbounded queueing, together with the pure string
utilities SanitizeForLog and ExecuteEditorCommands.

Strings are embedded as Lean strings; the character-level sanitizer works
on lists of characters (FString is an array of TCHARs; a TCHAR code point
becomes Char.toNat). Machine-level aspects (locks, thread affinity,
move-vs-copy) are modelled by the atomicity of the Lean step functions:
each C++ critical section or game-thread call becomes one total function
on an explicit state record.
-/

namespace McpBridge

/-- One deferred automation request, mirroring FPendingAutomationRequest:
request id, action name, opaque JSON payload text, and the id of the
originating socket (the reply channel). -/
structure FPendingAutomationRequest where
  RequestId : String
  Action : String
  Payload : String
  RequestingSocket : Nat
deriving DecidableEq, Repr

/-- A response envelope as sent back over the reply channel:
success flag, human message, optional result object (opaque JSON text)
and an error code string (empty when absent). -/
structure Response where
  RequestId : String
  Success : Bool
  Message : String
  Data : Option String
  ErrorCode : String
deriving DecidableEq, Repr

/-- The three global engine flags consulted before touching the engine:
GIsSavingPackage, IsGarbageCollecting(), IsAsyncLoading(). -/
structure EngineFlags where
  GIsSavingPackage : Bool
  IsGarbageCollecting : Bool
  IsAsyncLoading : Bool
deriving DecidableEq, Repr

/-- Mutation is unsafe when any of the three flags is set. -/
def UnsafeState (F : EngineFlags) : Bool :=
  F.GIsSavingPackage || F.IsGarbageCollecting || F.IsAsyncLoading

/-!  ## SanitizeForLog (McpAutomationBridgeSubsystem.cpp lines 41-56)  -/

/-- The source-level per-character step of SanitizeForLog: a character is
kept when its code point is at least 32 and not 127, otherwise it is
replaced by a question mark. -/
def SanitizeCharStep (C : Char) : Char :=
  if 32 ≤ C.toNat ∧ C.toNat ≠ 127 then C else '?'

/-- The marker appended after truncation to 512 characters. -/
def TruncatedMarker : List Char := "[TRUNCATED]".toList

/-- The character-by-character accumulation loop of SanitizeForLog
(the for loop appending into Out). -/
def SanitizeLoop : List Char → List Char
  | [] => []
  | C :: Rest => SanitizeCharStep C :: SanitizeLoop Rest

/-- SanitizeForLog: empty input returns empty; otherwise each character is
filtered through SanitizeCharStep, and a result longer than 512
characters is cut to its first 512 characters with "[TRUNCATED]"
appended (Out.Left(512) + TEXT("[TRUNCATED]")). -/
def SanitizeForLog (In : List Char) : List Char :=
  if In = [] then []
  else
    let Out := SanitizeLoop In
    if 512 < Out.length then Out.take 512 ++ TruncatedMarker else Out

/-!  ## ExecuteEditorCommands (McpAutomationBridgeSubsystem.cpp lines 938-979)  -/

/-- The editor environment ExecuteEditorCommands runs against: whether
GEditor exists, whether its editor world context resolves to a world, and
whether GEditor->Exec handles a given command string. -/
structure EditorContext where
  HasEditor : Bool
  HasWorld : Bool
  Exec : String → Bool

/-- The command loop of ExecuteEditorCommands: empty strings are skipped;
the first non-empty command not handled by Exec stops the loop with a
failure message naming that command; an exhausted list yields success. -/
def ExecuteEditorCommandsLoop (Ctx : EditorContext) : List String → Bool × Option String
  | [] => (true, none)
  | Command :: Rest =>
    if Command = "" then ExecuteEditorCommandsLoop Ctx Rest
    else if Ctx.Exec Command then ExecuteEditorCommandsLoop Ctx Rest
    else (false, some ("Failed to execute command: " ++ Command))

/-- ExecuteEditorCommands (WITH_EDITOR branch): fails with "Editor not
available" when GEditor is null, with "Editor world context not
available" when the editor world is null, and otherwise runs the command
loop. The boolean is the return value; the option is OutErrorMessage when
set. -/
def ExecuteEditorCommands (Ctx : EditorContext) (Commands : List String) : Bool × Option String :=
  if ¬Ctx.HasEditor then (false, some "Editor not available")
  else if ¬Ctx.HasWorld then (false, some "Editor world context not available")
  else ExecuteEditorCommandsLoop Ctx Commands

/-!  ## Handler registry (RegisterHandler, InitializeHandlers)  -/

/-- Events observable while one request is dispatched: a handler being
invoked, or a response envelope being sent to a socket. -/
inductive AutomationEvent where
  | handlerInvoked (Action : String) (RequestId : String)
  | responseSent (Socket : Nat) (Resp : Response)
deriving DecidableEq, Repr

/-- A registered automation handler (FAutomationHandler): it receives the
request and (per the protocol contract) produces the single response it
sends back. -/
abbrev FAutomationHandler : Type := FPendingAutomationRequest → Response

/-- TMap::FindRef-style exact lookup in the handler table: first pair
whose key equals the action, by exact string match. -/
def TMapFind (Key : String) : List (String × α) → Option α
  | [] => none
  | (K, V) :: Rest => if K = Key then some V else TMapFind Key Rest

/-- TMap::Add: replace the value of an existing key, otherwise append. -/
def TMapAdd (Key : String) (Value : α) : List (String × α) → List (String × α)
  | [] => [(Key, Value)]
  | (K, V) :: Rest =>
    if K = Key then (Key, Value) :: Rest else (K, V) :: TMapAdd Key Value Rest

/-- RegisterHandler (lines 292-297): a non-null handler is stored under
the action key (replacing any existing one); a null handler is a no-op. -/
def RegisterHandler (AutomationHandlers : List (String × α)) (Action : String)
    (Handler : Option α) : List (String × α) :=
  match Handler with
  | some F => TMapAdd Action F AutomationHandlers
  | none => AutomationHandlers

/-- The action names registered by InitializeHandlers (lines 315-887), in
registration order. -/
def RegisteredActions : List String :=
  [ "execute_editor_function", "set_object_property", "get_object_property",
    "array_append", "array_remove", "array_insert", "array_get_element",
    "array_set_element", "array_clear", "map_set_value", "map_get_value",
    "map_remove_key", "map_has_key", "map_get_keys", "map_clear",
    "set_add", "set_remove", "set_contains", "set_clear",
    "get_asset_references", "get_asset_dependencies", "fixup_redirectors",
    "source_control_checkout", "source_control_submit", "bulk_rename_assets",
    "bulk_delete_assets", "generate_thumbnail", "create_landscape",
    "create_procedural_terrain", "create_landscape_grass_type",
    "sculpt_landscape", "set_landscape_material", "edit_landscape",
    "add_foliage_type", "create_procedural_foliage", "paint_foliage",
    "add_foliage_instances", "remove_foliage", "get_foliage_instances",
    "create_niagara_system", "create_niagara_ribbon", "create_niagara_emitter",
    "spawn_niagara_actor", "modify_niagara_parameter", "create_anim_blueprint",
    "play_anim_montage", "setup_ragdoll", "add_material_texture_sample",
    "add_material_expression", "create_material_nodes",
    "add_sequencer_keyframe", "manage_sequencer_track", "add_camera_track",
    "add_animation_track", "add_transform_track", "manage_ui",
    "control_environment", "build_environment", "console_command", "inspect",
    "system_control", "describe_capabilities", "manage_blueprint_graph",
    "list_blueprints", "manage_world_partition", "manage_render",
    "manage_input", "control_actor", "manage_level", "manage_sequence",
    "manage_asset", "rebuild_material", "manage_behavior_tree",
    "manage_audio", "manage_lighting", "manage_physics", "manage_effect",
    "create_effect", "clear_debug_shapes", "manage_performance",
    "execute_python", "manage_game_framework", "manage_sessions",
    "manage_level_structure", "manage_volumes", "manage_navigation",
    "quit_editor" ]

/-- InitializeHandlers: starting from the empty table, every action of
RegisteredActions is registered with its (non-null) member-function
lambda, here abstracted as Impl applied to the action name. -/
def InitializeHandlers (Impl : String → α) : List (String × α) :=
  RegisteredActions.foldl (fun T A => RegisterHandler T A (some (Impl A))) []

/-!  ## Response sending (SendAutomationResponse, SendAutomationError)  -/

/-- The error-code resolution of SendAutomationError (lines 252-253): an
empty code becomes "AUTOMATION_ERROR". -/
def ResolveAutomationErrorCode (ErrorCode : String) : String :=
  if ErrorCode = "" then "AUTOMATION_ERROR" else ErrorCode

/-- SendAutomationResponse (lines 225-233): forwards one response
envelope for the given request to the target socket. -/
def SendAutomationResponse (TargetSocket : Nat) (RequestId : String)
    (bSuccess : Bool) (Message : String) (Result : Option String)
    (ErrorCode : String) : AutomationEvent :=
  .responseSent TargetSocket
    { RequestId := RequestId, Success := bSuccess, Message := Message,
      Data := Result, ErrorCode := ErrorCode }

/-- SendAutomationError (lines 249-259): resolves an empty error code to
"AUTOMATION_ERROR" and sends a failure response for the request. -/
def SendAutomationError (TargetSocket : Nat) (RequestId : String)
    (Message : String) (ErrorCode : String) : AutomationEvent :=
  SendAutomationResponse TargetSocket RequestId false Message none
    (ResolveAutomationErrorCode ErrorCode)

/-- Modelled from the spec: the dispatch half of ProcessAutomationRequest
(implemented in McpAutomationBridge_ProcessRequest.cpp, which is not part
of the provided sources). Processing one request looks its Action up by
exact string match in the handler table; a found handler is invoked and
sends its one response to the requesting socket; an unknown action yields
a structured failure response through SendAutomationError and invokes no
handler. -/
def DispatchAutomationRequest (AutomationHandlers : List (String × FAutomationHandler))
    (Req : FPendingAutomationRequest) : List AutomationEvent :=
  match TMapFind Req.Action AutomationHandlers with
  | some H =>
    [ .handlerInvoked Req.Action Req.RequestId,
      .responseSent Req.RequestingSocket (H Req) ]
  | none =>
    [ SendAutomationError Req.RequestingSocket Req.RequestId
        ("Unknown automation action: " ++ Req.Action) "" ]

/-- The responses contained in an event trace, with their target sockets. -/
def ResponsesOf (Events : List AutomationEvent) : List (Nat × Response) :=
  Events.filterMap fun E =>
    match E with
    | .responseSent Socket Resp => some (Socket, Resp)
    | _ => none

/-!  ## Deferred queue, drain and ticker  -/

/-- The queue-relevant state of the subsystem: the ambient engine flags,
the mutex-protected deferred queue PendingAutomationRequests, the
bPendingRequestsScheduled flag, and the trace of requests dispatched so
far, in dispatch order. -/
structure SubsystemState where
  Flags : EngineFlags
  PendingAutomationRequests : List FPendingAutomationRequest
  bPendingRequestsScheduled : Bool
  ProcessedLog : List FPendingAutomationRequest
deriving DecidableEq, Repr

/-- Modelled from the spec: the deferral half of ProcessAutomationRequest
(implemented in McpAutomationBridge_ProcessRequest.cpp, which is not part
of the provided sources). A request arriving while a save, garbage
collection or async load is in progress is appended to the shared
deferred list and the drain flag is set; otherwise it is processed
immediately (recorded in the dispatch trace). -/
def ProcessAutomationRequest (Req : FPendingAutomationRequest)
    (S : SubsystemState) : SubsystemState :=
  if UnsafeState S.Flags then
    { S with
      PendingAutomationRequests := S.PendingAutomationRequests ++ [Req],
      bPendingRequestsScheduled := true }
  else
    { S with ProcessedLog := S.ProcessedLog ++ [Req] }

/-- ProcessPendingAutomationRequests (lines 900-923): under the lock, an
empty queue just clears the scheduled flag; otherwise the queue is moved
into a local list and emptied, the scheduled flag is cleared, and each
moved request is handed to ProcessAutomationRequest in order. -/
def ProcessPendingAutomationRequests (S : SubsystemState) : SubsystemState :=
  if S.PendingAutomationRequests = [] then
    { S with bPendingRequestsScheduled := false }
  else
    let LocalQueue := S.PendingAutomationRequests
    let Swapped : SubsystemState :=
      { S with
        PendingAutomationRequests := [],
        bPendingRequestsScheduled := false }
    LocalQueue.foldl (fun St Req => ProcessAutomationRequest Req St) Swapped

/-- Tick (lines 196-204): when deferred requests are scheduled and none
of GIsSavingPackage, IsGarbageCollecting, IsAsyncLoading is set, the
pending queue is drained; otherwise nothing happens. -/
def Tick (S : SubsystemState) : SubsystemState :=
  if S.bPendingRequestsScheduled && !S.Flags.GIsSavingPackage
      && !S.Flags.IsGarbageCollecting && !S.Flags.IsAsyncLoading then
    ProcessPendingAutomationRequests S
  else S

/-- The ticker interval registered in Initialize (line 99): 0.1 seconds,
i.e. ten drains per second. -/
def AutomationTickIntervalSeconds : ℚ := 1 / 10

/-- The events driving the subsystem: a request arriving from a socket,
one ticker callback, or the engine changing its unsafe-state flags. -/
inductive BridgeOp where
  | arrive (Req : FPendingAutomationRequest)
  | tick
  | setFlags (Flags : EngineFlags)
deriving DecidableEq, Repr

/-- One step of the subsystem under an external event. -/
def StepOp (S : SubsystemState) : BridgeOp → SubsystemState
  | .arrive Req => ProcessAutomationRequest Req S
  | .tick => Tick S
  | .setFlags F => { S with Flags := F }

/-- Running a sequence of events from a state. -/
def RunOps (S : SubsystemState) (Ops : List BridgeOp) : SubsystemState :=
  Ops.foldl StepOp S

/-- The state right after Initialize: empty queue, no drain scheduled,
nothing processed, under the given engine flags. -/
def InitialState (Flags : EngineFlags) : SubsystemState :=
  { Flags := Flags, PendingAutomationRequests := [],
    bPendingRequestsScheduled := false, ProcessedLog := [] }

/-- The requests that arrive in an event sequence, in arrival order. -/
def Arrivals : List BridgeOp → List FPendingAutomationRequest
  | [] => []
  | .arrive Req :: Rest => Req :: Arrivals Rest
  | .tick :: Rest => Arrivals Rest
  | .setFlags _ :: Rest => Arrivals Rest

/-- The scheduling invariant of the subsystem: a non-empty deferred queue
always has the drain flag set, so a safe tick cannot overlook it. -/
def SchedInv (S : SubsystemState) : Prop :=
  S.PendingAutomationRequests ≠ [] → S.bPendingRequestsScheduled = true

/-!  ## Basic lemmas about the deferral step  -/

theorem UnsafeState_false {F : EngineFlags} (ha : F.GIsSavingPackage = false)
    (hb : F.IsGarbageCollecting = false) (hc : F.IsAsyncLoading = false) :
    UnsafeState F = false := by
  simp [UnsafeState, ha, hb, hc]

theorem PAR_safe (Req : FPendingAutomationRequest) (S : SubsystemState)
    (h : UnsafeState S.Flags = false) :
    ProcessAutomationRequest Req S
      = { S with ProcessedLog := S.ProcessedLog ++ [Req] } := by
  simp [ProcessAutomationRequest, h]

theorem PAR_defer (Req : FPendingAutomationRequest) (S : SubsystemState)
    (h : UnsafeState S.Flags = true) :
    ProcessAutomationRequest Req S
      = { S with
          PendingAutomationRequests := S.PendingAutomationRequests ++ [Req],
          bPendingRequestsScheduled := true } := by
  simp [ProcessAutomationRequest, h]

theorem PAR_Flags (Req : FPendingAutomationRequest) (S : SubsystemState) :
    (ProcessAutomationRequest Req S).Flags = S.Flags := by
  unfold ProcessAutomationRequest
  split <;> rfl

theorem foldPAR_safe (L : List FPendingAutomationRequest) (S : SubsystemState)
    (h : UnsafeState S.Flags = false) :
    L.foldl (fun St Req => ProcessAutomationRequest Req St) S
      = { S with ProcessedLog := S.ProcessedLog ++ L } := by
  induction L generalizing S with
  | nil => simp
  | cons C Rest ih =>
    simp only [List.foldl_cons]
    rw [PAR_safe C S h,
      ih { S with ProcessedLog := S.ProcessedLog ++ [C] } h]
    simp

theorem foldPAR_unsafe_log (L : List FPendingAutomationRequest)
    (S : SubsystemState) (h : UnsafeState S.Flags = true) :
    (L.foldl (fun St Req => ProcessAutomationRequest Req St) S).ProcessedLog
      = S.ProcessedLog := by
  induction L generalizing S with
  | nil => simp
  | cons C Rest ih =>
    simp only [List.foldl_cons]
    rw [PAR_defer C S h,
      ih { S with
            PendingAutomationRequests := S.PendingAutomationRequests ++ [C],
            bPendingRequestsScheduled := true } h]

theorem foldPAR_unsafe_pending (L : List FPendingAutomationRequest)
    (S : SubsystemState) (h : UnsafeState S.Flags = true) :
    (L.foldl (fun St Req => ProcessAutomationRequest Req St) S).PendingAutomationRequests
      = S.PendingAutomationRequests ++ L := by
  induction L generalizing S with
  | nil => simp
  | cons C Rest ih =>
    simp only [List.foldl_cons]
    rw [PAR_defer C S h,
      ih { S with
            PendingAutomationRequests := S.PendingAutomationRequests ++ [C],
            bPendingRequestsScheduled := true } h]
    simp

theorem PPAR_unsafe_log (S : SubsystemState) (h : UnsafeState S.Flags = true) :
    (ProcessPendingAutomationRequests S).ProcessedLog = S.ProcessedLog := by
  unfold ProcessPendingAutomationRequests
  split
  · rfl
  · exact foldPAR_unsafe_log S.PendingAutomationRequests
      { S with
        PendingAutomationRequests := [],
        bPendingRequestsScheduled := false } h

theorem PPAR_safe (S : SubsystemState) (h : UnsafeState S.Flags = false) :
    ProcessPendingAutomationRequests S
      = { S with
          PendingAutomationRequests := [],
          bPendingRequestsScheduled := false,
          ProcessedLog := S.ProcessedLog ++ S.PendingAutomationRequests } := by
  unfold ProcessPendingAutomationRequests
  split
  · next he => rw [he]; simp
  · rw [foldPAR_safe S.PendingAutomationRequests
      { S with
        PendingAutomationRequests := [],
        bPendingRequestsScheduled := false } h]

theorem PPAR_safe_pending (S : SubsystemState)
    (h : UnsafeState S.Flags = false) :
    (ProcessPendingAutomationRequests S).PendingAutomationRequests = [] := by
  rw [PPAR_safe S h]

theorem Tick_drain (S : SubsystemState)
    (hSched : S.bPendingRequestsScheduled = true)
    (ha : S.Flags.GIsSavingPackage = false)
    (hb : S.Flags.IsGarbageCollecting = false)
    (hc : S.Flags.IsAsyncLoading = false) :
    Tick S
      = { S with
          PendingAutomationRequests := [],
          bPendingRequestsScheduled := false,
          ProcessedLog := S.ProcessedLog ++ S.PendingAutomationRequests } := by
  have hcond : (S.bPendingRequestsScheduled && !S.Flags.GIsSavingPackage
      && !S.Flags.IsGarbageCollecting && !S.Flags.IsAsyncLoading) = true := by
    simp [hSched, ha, hb, hc]
  unfold Tick
  rw [if_pos hcond]
  exact PPAR_safe S (UnsafeState_false ha hb hc)

theorem Tick_stuck (S : SubsystemState)
    (h : (S.bPendingRequestsScheduled && !S.Flags.GIsSavingPackage
      && !S.Flags.IsGarbageCollecting && !S.Flags.IsAsyncLoading) = false) :
    Tick S = S := by
  unfold Tick
  rw [if_neg]
  simp [h]

/-!  ## Conservation of requests (nothing dropped, nothing duplicated)  -/

theorem PAR_count (Req C : FPendingAutomationRequest) (S : SubsystemState) :
    ((ProcessAutomationRequest C S).ProcessedLog).count Req
      + ((ProcessAutomationRequest C S).PendingAutomationRequests).count Req
      = (S.ProcessedLog).count Req + (S.PendingAutomationRequests).count Req
        + ([C] : List FPendingAutomationRequest).count Req := by
  unfold ProcessAutomationRequest
  split
  · simp [List.count_append]
    omega
  · simp [List.count_append]
    omega

theorem foldPAR_count (L : List FPendingAutomationRequest)
    (S : SubsystemState) (Req : FPendingAutomationRequest) :
    ((L.foldl (fun St R => ProcessAutomationRequest R St) S).ProcessedLog).count Req
      + ((L.foldl (fun St R => ProcessAutomationRequest R St) S).PendingAutomationRequests).count Req
      = (S.ProcessedLog).count Req + (S.PendingAutomationRequests).count Req
        + L.count Req := by
  induction L generalizing S with
  | nil => simp
  | cons C Rest ih =>
    simp only [List.foldl_cons]
    rw [ih (ProcessAutomationRequest C S)]
    have h2 := PAR_count Req C S
    have hsplit : (C :: Rest : List FPendingAutomationRequest).count Req
        = ([C] : List FPendingAutomationRequest).count Req + Rest.count Req := by
      rw [show (C :: Rest : List FPendingAutomationRequest) = [C] ++ Rest from rfl,
        List.count_append]
    rw [hsplit]
    omega

theorem PPAR_count (S : SubsystemState) (Req : FPendingAutomationRequest) :
    ((ProcessPendingAutomationRequests S).ProcessedLog).count Req
      + ((ProcessPendingAutomationRequests S).PendingAutomationRequests).count Req
      = (S.ProcessedLog).count Req + (S.PendingAutomationRequests).count Req := by
  unfold ProcessPendingAutomationRequests
  split
  · next he => rfl
  · rw [foldPAR_count S.PendingAutomationRequests
      { S with
        PendingAutomationRequests := [],
        bPendingRequestsScheduled := false } Req]
    simp

theorem Tick_count (S : SubsystemState) (Req : FPendingAutomationRequest) :
    ((Tick S).ProcessedLog).count Req
      + ((Tick S).PendingAutomationRequests).count Req
      = (S.ProcessedLog).count Req + (S.PendingAutomationRequests).count Req := by
  unfold Tick
  split
  · exact PPAR_count S Req
  · rfl

theorem StepOp_count (S : SubsystemState) (Op : BridgeOp)
    (Req : FPendingAutomationRequest) :
    ((StepOp S Op).ProcessedLog).count Req
      + ((StepOp S Op).PendingAutomationRequests).count Req
      = (S.ProcessedLog).count Req + (S.PendingAutomationRequests).count Req
        + (Arrivals [Op]).count Req := by
  cases Op with
  | arrive C => simpa [StepOp, Arrivals] using PAR_count Req C S
  | tick => simpa [StepOp, Arrivals] using Tick_count S Req
  | setFlags F => simp [StepOp, Arrivals]

theorem Arrivals_cons_count (Op : BridgeOp) (Ops : List BridgeOp)
    (Req : FPendingAutomationRequest) :
    (Arrivals (Op :: Ops)).count Req
      = (Arrivals [Op]).count Req + (Arrivals Ops).count Req := by
  cases Op with
  | arrive C =>
    simp only [Arrivals, List.count_cons, List.count_nil]
    omega
  | tick => simp [Arrivals]
  | setFlags F => simp [Arrivals]

theorem RunOps_count (Ops : List BridgeOp) (S : SubsystemState)
    (Req : FPendingAutomationRequest) :
    ((RunOps S Ops).ProcessedLog).count Req
      + ((RunOps S Ops).PendingAutomationRequests).count Req
      = (S.ProcessedLog).count Req + (S.PendingAutomationRequests).count Req
        + (Arrivals Ops).count Req := by
  induction Ops generalizing S with
  | nil => simp [RunOps, Arrivals]
  | cons Op Rest ih =>
    have h1 : RunOps S (Op :: Rest) = RunOps (StepOp S Op) Rest := rfl
    rw [h1, ih (StepOp S Op), StepOp_count S Op Req,
      Arrivals_cons_count Op Rest Req]
    omega

/-!  ## The scheduling invariant is preserved  -/

theorem StepOp_SchedInv (S : SubsystemState) (Op : BridgeOp)
    (h : SchedInv S) : SchedInv (StepOp S Op) := by
  cases Op with
  | arrive C =>
    show SchedInv (ProcessAutomationRequest C S)
    unfold SchedInv ProcessAutomationRequest
    split
    · intro _; rfl
    · intro hne; exact h hne
  | tick =>
    show SchedInv (Tick S)
    unfold Tick
    split
    · next hcond =>
      intro hne
      simp only [Bool.and_eq_true, Bool.not_eq_true'] at hcond
      exact absurd
        (PPAR_safe_pending S
          (UnsafeState_false hcond.1.1.2 hcond.1.2 hcond.2)) hne
    · exact h
  | setFlags F =>
    intro hne
    exact h hne

theorem RunOps_SchedInv (Ops : List BridgeOp) (S : SubsystemState)
    (h : SchedInv S) : SchedInv (RunOps S Ops) := by
  induction Ops generalizing S with
  | nil => exact h
  | cons Op Rest ih => exact ih (StepOp S Op) (StepOp_SchedInv S Op h)

/-!  ## Handler table lookup  -/

theorem TMapFind_TMapAdd (A K : String) (V : α) (T : List (String × α)) :
    TMapFind A (TMapAdd K V T) = if K = A then some V else TMapFind A T := by
  induction T with
  | nil => simp [TMapAdd, TMapFind]
  | cons P Rest ih =>
    obtain ⟨K2, V2⟩ := P
    by_cases h2 : K2 = K
    · subst h2
      by_cases h3 : K2 = A
      · subst h3
        simp [TMapAdd, TMapFind]
      · simp [TMapAdd, TMapFind, h3]
    · by_cases h3 : K2 = A
      · subst h3
        have h4 : ¬(K = K2) := fun h => h2 h.symm
        simp [TMapAdd, TMapFind, h2, h4]
      · simp [TMapAdd, TMapFind, h2, h3, ih]

theorem TMapFind_InitializeHandlers (Impl : String → α) (A : String) :
    TMapFind A (InitializeHandlers Impl)
      = if A ∈ RegisteredActions then some (Impl A) else none := by
  have key : ∀ (Acts : List String) (T : List (String × α)),
      TMapFind A (Acts.foldl (fun T2 A2 => RegisterHandler T2 A2 (some (Impl A2))) T)
        = if A ∈ Acts then some (Impl A) else TMapFind A T := by
    intro Acts
    induction Acts with
    | nil => intro T; simp
    | cons A0 Rest ih =>
      intro T
      simp only [List.foldl_cons]
      rw [ih (RegisterHandler T A0 (some (Impl A0)))]
      by_cases hmem : A ∈ Rest
      · simp [hmem, List.mem_cons]
      · by_cases heq : A = A0
        · subst heq
          simp [hmem, RegisterHandler, TMapFind_TMapAdd]
        · have h4 : ¬(A0 = A) := fun h => heq h.symm
          simp [hmem, heq, RegisterHandler, TMapFind_TMapAdd, h4]
  unfold InitializeHandlers
  rw [key RegisteredActions []]
  simp [TMapFind]

/-!  ## Editor command loop  -/

theorem Loop_true_iff (Ctx : EditorContext) (L : List String) :
    (ExecuteEditorCommandsLoop Ctx L).1 = true
      ↔ ∀ Command ∈ L, Command ≠ "" → Ctx.Exec Command = true := by
  induction L with
  | nil => simp [ExecuteEditorCommandsLoop]
  | cons C Rest ih =>
    by_cases h1 : C = ""
    · subst h1
      have hstep : ExecuteEditorCommandsLoop Ctx ("" :: Rest)
          = ExecuteEditorCommandsLoop Ctx Rest := by
        simp [ExecuteEditorCommandsLoop]
      rw [hstep, ih]
      constructor
      · intro h Command hmem hne
        rcases List.mem_cons.1 hmem with h6 | h6
        · exact absurd h6 hne
        · exact h Command h6 hne
      · intro h Command hmem hne
        exact h Command (List.mem_cons_of_mem _ hmem) hne
    · by_cases h2 : Ctx.Exec C = true
      · have hstep : ExecuteEditorCommandsLoop Ctx (C :: Rest)
            = ExecuteEditorCommandsLoop Ctx Rest := by
          simp [ExecuteEditorCommandsLoop, h1, h2]
        rw [hstep, ih]
        constructor
        · intro h Command hmem hne
          rcases List.mem_cons.1 hmem with h6 | h6
          · rw [h6]; exact h2
          · exact h Command h6 hne
        · intro h Command hmem hne
          exact h Command (List.mem_cons_of_mem _ hmem) hne
      · have hstep : ExecuteEditorCommandsLoop Ctx (C :: Rest)
            = (false, some ("Failed to execute command: " ++ C)) := by
          simp [ExecuteEditorCommandsLoop, h1, h2]
        rw [hstep]
        constructor
        · intro h; cases h
        · intro h
          exact absurd (h C (List.mem_cons_self _ _) h1) h2

theorem Loop_skip_prefix (Ctx : EditorContext) (Pre Rest : List String)
    (h : ∀ D ∈ Pre, D ≠ "" → Ctx.Exec D = true) :
    ExecuteEditorCommandsLoop Ctx (Pre ++ Rest)
      = ExecuteEditorCommandsLoop Ctx Rest := by
  induction Pre with
  | nil => rfl
  | cons D Pre2 ih =>
    have hrest : ∀ E ∈ Pre2, E ≠ "" → Ctx.Exec E = true :=
      fun E hmem => h E (List.mem_cons_of_mem _ hmem)
    have hstep : ExecuteEditorCommandsLoop Ctx ((D :: Pre2) ++ Rest)
        = ExecuteEditorCommandsLoop Ctx (Pre2 ++ Rest) := by
      by_cases h1 : D = ""
      · simp [ExecuteEditorCommandsLoop, h1]
      · have h2 : Ctx.Exec D = true := h D (List.mem_cons_self _ _) h1
        simp [ExecuteEditorCommandsLoop, h1, h2]
    rw [hstep]
    exact ih hrest

theorem Loop_fail_head (Ctx : EditorContext) (C : String) (Post : List String)
    (h1 : C ≠ "") (h2 : Ctx.Exec C = false) :
    ExecuteEditorCommandsLoop Ctx (C :: Post)
      = (false, some ("Failed to execute command: " ++ C)) := by
  simp [ExecuteEditorCommandsLoop, h1, h2]

/-!  ## Sanitizer characterisation  -/

theorem SanitizeLoop_eq_map (In : List Char) :
    SanitizeLoop In = In.map SanitizeCharStep := by
  induction In with
  | nil => rfl
  | cons C Rest ih => simp [SanitizeLoop, ih]

theorem SanitizeCharStep_eq (C : Char) :
    SanitizeCharStep C
      = if C.toNat < 32 ∨ C.toNat = 127 then '?' else C := by
  unfold SanitizeCharStep
  split
  · next h =>
    rw [if_neg (by omega)]
  · next h =>
    rw [if_pos (by omega)]

theorem SanitizeCharStep_ok (C : Char) :
    ¬((SanitizeCharStep C).toNat < 32 ∨ (SanitizeCharStep C).toNat = 127) := by
  unfold SanitizeCharStep
  split
  · next h => omega
  · decide

/-!  ## Claims  -/

/-- Claim C1: all engine-mutating work (the processing of automation
requests) happens only while none of the three unsafe-state flags is set:
whenever a drain of the deferred queue extends the dispatch trace, the
save-in-progress, garbage-collection-in-progress and
async-load-in-progress flags are all clear. -/
theorem claim_C1_drain_gated (S : SubsystemState)
    (h : (ProcessPendingAutomationRequests S).ProcessedLog ≠ S.ProcessedLog) :
    S.Flags.GIsSavingPackage = false ∧ S.Flags.IsGarbageCollecting = false
      ∧ S.Flags.IsAsyncLoading = false := by
  cases hu : UnsafeState S.Flags with
  | true => exact absurd (PPAR_unsafe_log S hu) h
  | false =>
    simp only [UnsafeState, Bool.or_eq_false_iff] at hu
    exact ⟨hu.1.1, hu.1.2, hu.2⟩

/-- Witness for C1: a drain from a state with clear flags and one queued
request really extends the dispatch trace. -/
theorem claim_C1_drain_gated_witness :
    (ProcessPendingAutomationRequests
        { Flags := { GIsSavingPackage := false, IsGarbageCollecting := false,
                     IsAsyncLoading := false },
          PendingAutomationRequests :=
            [{ RequestId := "r1", Action := "console_command",
               Payload := "{}", RequestingSocket := 0 }],
          bPendingRequestsScheduled := true,
          ProcessedLog := [] }).ProcessedLog
      ≠ ([] : List FPendingAutomationRequest)
    ∧ ((false = false) ∧ (false = false) ∧ (false = false)) :=
  ⟨by decide,
    claim_C1_drain_gated
      { Flags := { GIsSavingPackage := false, IsGarbageCollecting := false,
                   IsAsyncLoading := false },
        PendingAutomationRequests :=
          [{ RequestId := "r1", Action := "console_command",
             Payload := "{}", RequestingSocket := 0 }],
        bPendingRequestsScheduled := true,
        ProcessedLog := [] } (by decide)⟩

/-- Claim C2: the drain step: the ticker registered at a fixed 0.1 second
interval (ten per second) checks the three unsafe-state flags; if all are
clear and the drain flag is set, it swaps the shared deferred list for an
empty one, clears the drain flag, and processes each queued request in
arrival order. -/
theorem claim_C2_drain_algorithm (S : SubsystemState)
    (hSched : S.bPendingRequestsScheduled = true)
    (ha : S.Flags.GIsSavingPackage = false)
    (hb : S.Flags.IsGarbageCollecting = false)
    (hc : S.Flags.IsAsyncLoading = false) :
    Tick S
      = { S with
          PendingAutomationRequests := [],
          bPendingRequestsScheduled := false,
          ProcessedLog := S.ProcessedLog ++ S.PendingAutomationRequests }
    ∧ AutomationTickIntervalSeconds = 1 / 10 :=
  ⟨Tick_drain S hSched ha hb hc, rfl⟩

/-- Witness for C2: the drain of a concrete two-request queue under clear
flags moves both requests, in order, into the dispatch trace. -/
theorem claim_C2_drain_algorithm_witness :
    Tick
        { Flags := { GIsSavingPackage := false, IsGarbageCollecting := false,
                     IsAsyncLoading := false },
          PendingAutomationRequests :=
            [{ RequestId := "r1", Action := "manage_level",
               Payload := "a", RequestingSocket := 1 },
             { RequestId := "r2", Action := "manage_asset",
               Payload := "b", RequestingSocket := 2 }],
          bPendingRequestsScheduled := true,
          ProcessedLog := [] }
      = { Flags := { GIsSavingPackage := false, IsGarbageCollecting := false,
                     IsAsyncLoading := false },
          PendingAutomationRequests := [],
          bPendingRequestsScheduled := false,
          ProcessedLog :=
            [{ RequestId := "r1", Action := "manage_level",
               Payload := "a", RequestingSocket := 1 },
             { RequestId := "r2", Action := "manage_asset",
               Payload := "b", RequestingSocket := 2 }] }
    ∧ AutomationTickIntervalSeconds = 1 / 10 :=
  claim_C2_drain_algorithm _ rfl rfl rfl rfl

/-- Claim C3: a request is processed at most once: when the requests
arriving over a run are pairwise distinct, no sequence of arrivals, flag
changes, ticks and drains puts the same request into the dispatch trace
twice. -/
theorem claim_C3_at_most_once (Flags : EngineFlags) (Ops : List BridgeOp)
    (h : (Arrivals Ops).Nodup) :
    ((RunOps (InitialState Flags) Ops).ProcessedLog).Nodup := by
  rw [List.nodup_iff_count_le_one] at h ⊢
  intro Req
  have h2 := RunOps_count Ops (InitialState Flags) Req
  have h3 : ((InitialState Flags).ProcessedLog).count Req = 0 := rfl
  have h4 : ((InitialState Flags).PendingAutomationRequests).count Req = 0 := rfl
  have h5 := h Req
  omega

/-- Witness for C3: a run with two distinct requests, one deferred during
garbage collection and drained later, has a duplicate-free trace. -/
theorem claim_C3_at_most_once_witness :
    (Arrivals
        [ BridgeOp.arrive
            { RequestId := "r1", Action := "inspect",
              Payload := "a", RequestingSocket := 1 },
          BridgeOp.setFlags
            { GIsSavingPackage := false, IsGarbageCollecting := true,
              IsAsyncLoading := false },
          BridgeOp.arrive
            { RequestId := "r2", Action := "inspect",
              Payload := "b", RequestingSocket := 1 },
          BridgeOp.tick,
          BridgeOp.setFlags
            { GIsSavingPackage := false, IsGarbageCollecting := false,
              IsAsyncLoading := false },
          BridgeOp.tick ]).Nodup
    ∧ ((RunOps
        (InitialState
          { GIsSavingPackage := false, IsGarbageCollecting := false,
            IsAsyncLoading := false })
        [ BridgeOp.arrive
            { RequestId := "r1", Action := "inspect",
              Payload := "a", RequestingSocket := 1 },
          BridgeOp.setFlags
            { GIsSavingPackage := false, IsGarbageCollecting := true,
              IsAsyncLoading := false },
          BridgeOp.arrive
            { RequestId := "r2", Action := "inspect",
              Payload := "b", RequestingSocket := 1 },
          BridgeOp.tick,
          BridgeOp.setFlags
            { GIsSavingPackage := false, IsGarbageCollecting := false,
              IsAsyncLoading := false },
          BridgeOp.tick ]).ProcessedLog).Nodup :=
  ⟨by decide, claim_C3_at_most_once _ _ (by decide)⟩

/-- Claim C4: processing one request invokes exactly one handler, found
by exact string match on the request's Action in the table populated at
startup by InitializeHandlers; an action with no registered handler
yields a structured failure response and invokes no handler. -/
theorem claim_C4_dispatch (Impl : String → FAutomationHandler)
    (Req : FPendingAutomationRequest) :
    (TMapFind Req.Action (InitializeHandlers Impl) = none
      ↔ Req.Action ∉ RegisteredActions)
    ∧ (∀ H, TMapFind Req.Action (InitializeHandlers Impl) = some H →
        DispatchAutomationRequest (InitializeHandlers Impl) Req
          = [ AutomationEvent.handlerInvoked Req.Action Req.RequestId,
              AutomationEvent.responseSent Req.RequestingSocket (H Req) ])
    ∧ (TMapFind Req.Action (InitializeHandlers Impl) = none →
        (∀ A R, AutomationEvent.handlerInvoked A R
            ∉ DispatchAutomationRequest (InitializeHandlers Impl) Req)
        ∧ ∃ Resp,
            DispatchAutomationRequest (InitializeHandlers Impl) Req
              = [AutomationEvent.responseSent Req.RequestingSocket Resp]
            ∧ Resp.Success = false) := by
  refine ⟨?_, ?_, ?_⟩
  · rw [TMapFind_InitializeHandlers]
    by_cases hmem : Req.Action ∈ RegisteredActions
    · simp [hmem]
    · simp [hmem]
  · intro H hfind
    unfold DispatchAutomationRequest
    rw [hfind]
  · intro hfind
    constructor
    · intro A R
      unfold DispatchAutomationRequest
      rw [hfind]
      simp [SendAutomationError, SendAutomationResponse]
    · refine ⟨{ RequestId := Req.RequestId, Success := false,
                Message := "Unknown automation action: " ++ Req.Action,
                Data := none, ErrorCode := "AUTOMATION_ERROR" }, ?_, rfl⟩
      unfold DispatchAutomationRequest
      rw [hfind]
      rfl

/-- Witness for C4: with a concrete handler assignment, a registered
action ("quit_editor") dispatches to exactly its handler, and an
unregistered action ("no_such_action") invokes no handler and produces a
single failure response. -/
theorem claim_C4_dispatch_witness :
    (DispatchAutomationRequest
        (InitializeHandlers (fun _ Req =>
          { RequestId := Req.RequestId, Success := true, Message := "ok",
            Data := none, ErrorCode := "" }))
        { RequestId := "q1", Action := "quit_editor", Payload := "{}",
          RequestingSocket := 3 }
      = [ AutomationEvent.handlerInvoked "quit_editor" "q1",
          AutomationEvent.responseSent 3
            { RequestId := "q1", Success := true, Message := "ok",
              Data := none, ErrorCode := "" } ])
    ∧ (∀ A R, AutomationEvent.handlerInvoked A R
        ∉ DispatchAutomationRequest
            (InitializeHandlers (fun _ Req =>
              { RequestId := Req.RequestId, Success := true, Message := "ok",
                Data := none, ErrorCode := "" }))
            { RequestId := "q2", Action := "no_such_action", Payload := "{}",
              RequestingSocket := 4 }) := by
  constructor
  · exact
      (claim_C4_dispatch (fun _ Req =>
          { RequestId := Req.RequestId, Success := true, Message := "ok",
            Data := none, ErrorCode := "" })
        { RequestId := "q1", Action := "quit_editor", Payload := "{}",
          RequestingSocket := 3 }).2.1
        (fun Req =>
          { RequestId := Req.RequestId, Success := true, Message := "ok",
            Data := none, ErrorCode := "" })
        (by
          rw [TMapFind_InitializeHandlers,
            if_pos (by decide : ("quit_editor" : String) ∈ RegisteredActions)])
  · exact
      ((claim_C4_dispatch (fun _ Req =>
          { RequestId := Req.RequestId, Success := true, Message := "ok",
            Data := none, ErrorCode := "" })
        { RequestId := "q2", Action := "no_such_action", Payload := "{}",
          RequestingSocket := 4 }).2.2
        ((claim_C4_dispatch (fun _ Req =>
          { RequestId := Req.RequestId, Success := true, Message := "ok",
            Data := none, ErrorCode := "" })
        { RequestId := "q2", Action := "no_such_action", Payload := "{}",
          RequestingSocket := 4 }).1.mpr (by decide))).1

/-- Claim C5: for every processed request exactly one response is sent,
through the originating socket, shaped as success flag, message, optional
data object and error code; failure responses sent through
SendAutomationError carry success = false and an error code, an empty
code being resolved to "AUTOMATION_ERROR". -/
theorem claim_C5_one_response
    (AutomationHandlers : List (String × FAutomationHandler))
    (Req : FPendingAutomationRequest) (Code : String) :
    (∃ Resp, ResponsesOf (DispatchAutomationRequest AutomationHandlers Req)
        = [(Req.RequestingSocket, Resp)])
    ∧ (∀ Socket RequestId Message, ∃ Resp,
        SendAutomationError Socket RequestId Message Code
          = AutomationEvent.responseSent Socket Resp
        ∧ Resp.Success = false
        ∧ Resp.ErrorCode = ResolveAutomationErrorCode Code
        ∧ Resp.ErrorCode ≠ ""
        ∧ (Code = "" → Resp.ErrorCode = "AUTOMATION_ERROR")) := by
  constructor
  · unfold DispatchAutomationRequest
    cases hfind : TMapFind Req.Action AutomationHandlers with
    | some H => exact ⟨H Req, rfl⟩
    | none =>
      exact ⟨{ RequestId := Req.RequestId, Success := false,
               Message := "Unknown automation action: " ++ Req.Action,
               Data := none,
               ErrorCode := ResolveAutomationErrorCode "" }, rfl⟩
  · intro Socket RequestId Message
    refine ⟨{ RequestId := RequestId, Success := false, Message := Message,
              Data := none, ErrorCode := ResolveAutomationErrorCode Code },
      rfl, rfl, rfl, ?_, ?_⟩
    · unfold ResolveAutomationErrorCode
      split
      · simp
      · next hne => simpa using hne
    · intro hc
      simp [ResolveAutomationErrorCode, hc]

/-- Witness for C5: a dispatch against the empty handler table produces
exactly one response, and an error sent with an empty code carries the
resolved code "AUTOMATION_ERROR". -/
theorem claim_C5_one_response_witness :
    (∃ Resp, ResponsesOf
        (DispatchAutomationRequest []
          { RequestId := "w1", Action := "inspect", Payload := "{}",
            RequestingSocket := 7 })
        = [(7, Resp)])
    ∧ ∃ Resp,
        SendAutomationError 7 "w1" "boom" ""
          = AutomationEvent.responseSent 7 Resp
        ∧ Resp.Success = false
        ∧ Resp.ErrorCode = ResolveAutomationErrorCode ""
        ∧ Resp.ErrorCode ≠ ""
        ∧ Resp.ErrorCode = "AUTOMATION_ERROR" := by
  have h := claim_C5_one_response []
    { RequestId := "w1", Action := "inspect", Payload := "{}",
      RequestingSocket := 7 } ""
  refine ⟨h.1, ?_⟩
  obtain ⟨Resp, h1, h2, h3, h4, h5⟩ := h.2 7 "w1" "boom"
  exact ⟨Resp, h1, h2, h3, h4, h5 rfl⟩

theorem RunOps_append (S : SubsystemState) (L1 L2 : List BridgeOp) :
    RunOps S (L1 ++ L2) = RunOps (RunOps S L1) L2 := by
  unfold RunOps
  rw [List.foldl_append]

/-- Claim C6: no request is dropped: over any run, every arrived request
is accounted for in the dispatch trace or the deferred queue, and once
the flags clear, the next tick hands every queued request to the drain
(the queue empties into the trace). -/
theorem claim_C6_no_drop (Flags : EngineFlags) (Ops : List BridgeOp) :
    (∀ Req : FPendingAutomationRequest,
        ((RunOps (InitialState Flags) Ops).ProcessedLog).count Req
          + ((RunOps (InitialState Flags) Ops).PendingAutomationRequests).count Req
          = (Arrivals Ops).count Req)
    ∧ (RunOps (InitialState Flags)
        (Ops ++ [BridgeOp.setFlags
            { GIsSavingPackage := false, IsGarbageCollecting := false,
              IsAsyncLoading := false },
          BridgeOp.tick])).PendingAutomationRequests = []
    ∧ (RunOps (InitialState Flags)
        (Ops ++ [BridgeOp.setFlags
            { GIsSavingPackage := false, IsGarbageCollecting := false,
              IsAsyncLoading := false },
          BridgeOp.tick])).ProcessedLog
      = (RunOps (InitialState Flags) Ops).ProcessedLog
        ++ (RunOps (InitialState Flags) Ops).PendingAutomationRequests := by
  have hcount : ∀ Req : FPendingAutomationRequest,
      ((RunOps (InitialState Flags) Ops).ProcessedLog).count Req
        + ((RunOps (InitialState Flags) Ops).PendingAutomationRequests).count Req
        = (Arrivals Ops).count Req := by
    intro Req
    have h2 := RunOps_count Ops (InitialState Flags) Req
    have h3 : ((InitialState Flags).ProcessedLog).count Req = 0 := rfl
    have h4 : ((InitialState Flags).PendingAutomationRequests).count Req = 0 := rfl
    omega
  have hinv := RunOps_SchedInv Ops (InitialState Flags) (fun h => absurd rfl h)
  have happ : RunOps (InitialState Flags)
      (Ops ++ [BridgeOp.setFlags
          { GIsSavingPackage := false, IsGarbageCollecting := false,
            IsAsyncLoading := false },
        BridgeOp.tick])
      = Tick
          { RunOps (InitialState Flags) Ops with
            Flags := { GIsSavingPackage := false,
                       IsGarbageCollecting := false,
                       IsAsyncLoading := false } } := by
    rw [RunOps_append]
    rfl
  have hdrained : Tick
      { RunOps (InitialState Flags) Ops with
        Flags := { GIsSavingPackage := false, IsGarbageCollecting := false,
                   IsAsyncLoading := false } }
      = { RunOps (InitialState Flags) Ops with
          Flags := { GIsSavingPackage := false, IsGarbageCollecting := false,
                     IsAsyncLoading := false },
          PendingAutomationRequests := [],
          bPendingRequestsScheduled := false,
          ProcessedLog := (RunOps (InitialState Flags) Ops).ProcessedLog
            ++ (RunOps (InitialState Flags) Ops).PendingAutomationRequests } := by
    by_cases hsch :
        (RunOps (InitialState Flags) Ops).bPendingRequestsScheduled = true
    · exact Tick_drain _ hsch rfl rfl rfl
    · have hf : (RunOps (InitialState Flags) Ops).bPendingRequestsScheduled
          = false := by
        revert hsch
        cases (RunOps (InitialState Flags) Ops).bPendingRequestsScheduled <;>
          simp
      have hpend :
          (RunOps (InitialState Flags) Ops).PendingAutomationRequests = [] := by
        by_contra hne
        rw [hinv hne] at hf
        cases hf
      rw [Tick_stuck _ (by simp [hf])]
      simp [hpend, hf]
  exact ⟨hcount, by rw [happ, hdrained], by rw [happ, hdrained]⟩

/-- Claim C7: FIFO drain: if request X was appended to the deferred queue
before request Y, a drain under clear flags processes X before Y (the
dispatch trace extends with the queue in its arrival order). -/
theorem claim_C7_fifo (S : SubsystemState) (X Y : FPendingAutomationRequest)
    (P1 P2 P3 : List FPendingAutomationRequest)
    (hSched : S.bPendingRequestsScheduled = true)
    (ha : S.Flags.GIsSavingPackage = false)
    (hb : S.Flags.IsGarbageCollecting = false)
    (hc : S.Flags.IsAsyncLoading = false)
    (hQ : S.PendingAutomationRequests = P1 ++ X :: (P2 ++ Y :: P3)) :
    ∃ Q1 Q2 Q3, (Tick S).ProcessedLog = Q1 ++ X :: (Q2 ++ Y :: Q3) := by
  refine ⟨S.ProcessedLog ++ P1, P2, P3, ?_⟩
  rw [Tick_drain S hSched ha hb hc]
  show S.ProcessedLog ++ S.PendingAutomationRequests = _
  rw [hQ]
  simp [List.append_assoc]

/-- Witness for C7: a drain of the concrete queue holding X then Y puts X
before Y in the dispatch trace. -/
theorem claim_C7_fifo_witness :
    ∃ Q1 Q2 Q3,
      (Tick
        { Flags := { GIsSavingPackage := false, IsGarbageCollecting := false,
                     IsAsyncLoading := false },
          PendingAutomationRequests :=
            [{ RequestId := "x", Action := "manage_audio",
               Payload := "a", RequestingSocket := 1 },
             { RequestId := "y", Action := "manage_render",
               Payload := "b", RequestingSocket := 2 }],
          bPendingRequestsScheduled := true,
          ProcessedLog := [] }).ProcessedLog
      = Q1 ++ { RequestId := "x", Action := "manage_audio",
                Payload := "a", RequestingSocket := 1 }
          :: (Q2 ++ { RequestId := "y", Action := "manage_render",
                      Payload := "b", RequestingSocket := 2 } :: Q3) :=
  claim_C7_fifo _ _ _ [] [] [] rfl rfl rfl rfl rfl

/-- Claim C8: the deferred queue has no backpressure or capacity bound:
under unsafe flags every arriving request is appended (the length grows
by exactly one, never rejected), and a burst of n arrivals grows the
queue by n. -/
theorem claim_C8_unbounded (S : SubsystemState)
    (Reqs : List FPendingAutomationRequest)
    (h : UnsafeState S.Flags = true) :
    (∀ Req, ((ProcessAutomationRequest Req S).PendingAutomationRequests).length
        = S.PendingAutomationRequests.length + 1)
    ∧ ((Reqs.foldl (fun St Req => ProcessAutomationRequest Req St)
          S).PendingAutomationRequests).length
      = S.PendingAutomationRequests.length + Reqs.length := by
  constructor
  · intro Req
    rw [PAR_defer Req S h]
    simp
  · rw [foldPAR_unsafe_pending Reqs S h]
    simp

/-- Witness for C8: two requests arriving during a package save are both
appended to an initially empty queue. -/
theorem claim_C8_unbounded_witness :
    UnsafeState
        { GIsSavingPackage := true, IsGarbageCollecting := false,
          IsAsyncLoading := false } = true
    ∧ (([{ RequestId := "b1", Action := "manage_ui", Payload := "a",
           RequestingSocket := 1 },
         { RequestId := "b2", Action := "manage_ui", Payload := "b",
           RequestingSocket := 1 }].foldl
          (fun St Req => ProcessAutomationRequest Req St)
          { Flags := { GIsSavingPackage := true, IsGarbageCollecting := false,
                       IsAsyncLoading := false },
            PendingAutomationRequests := [],
            bPendingRequestsScheduled := false,
            ProcessedLog := [] }).PendingAutomationRequests).length
      = 2 :=
  ⟨by decide,
    (claim_C8_unbounded
      { Flags := { GIsSavingPackage := true, IsGarbageCollecting := false,
                   IsAsyncLoading := false },
        PendingAutomationRequests := [],
        bPendingRequestsScheduled := false,
        ProcessedLog := [] }
      [{ RequestId := "b1", Action := "manage_ui", Payload := "a",
         RequestingSocket := 1 },
       { RequestId := "b2", Action := "manage_ui", Payload := "b",
         RequestingSocket := 1 }] (by decide)).2⟩

theorem SanitizeForLog_ne (In : List Char) (h : In ≠ []) :
    SanitizeForLog In
      = if 512 < (SanitizeLoop In).length then
          (SanitizeLoop In).take 512 ++ TruncatedMarker
        else SanitizeLoop In := by
  unfold SanitizeForLog
  rw [if_neg h]

theorem TruncatedMarker_ok :
    ∀ C ∈ TruncatedMarker, ¬(C.toNat < 32 ∨ C.toNat = 127) := by
  decide

/-- Claim C9: SanitizeForLog replaces each input character with code
point below 32 or equal to 127 by a question mark and keeps every other
character in order; a result longer than 512 characters becomes its
first 512 characters followed by "[TRUNCATED]"; hence the output never
contains such a control character and is never longer than 523. -/
theorem claim_C9_sanitize (In : List Char) :
    (∃ Mid, Mid = In.map
        (fun C => if C.toNat < 32 ∨ C.toNat = 127 then '?' else C)
      ∧ SanitizeForLog In
          = if 512 < Mid.length then Mid.take 512 ++ "[TRUNCATED]".toList
            else Mid)
    ∧ (∀ C ∈ SanitizeForLog In, ¬(C.toNat < 32 ∨ C.toNat = 127))
    ∧ (SanitizeForLog In).length ≤ 523 := by
  have hstep : SanitizeCharStep
      = fun C => if C.toNat < 32 ∨ C.toNat = 127 then '?' else C :=
    funext SanitizeCharStep_eq
  refine ⟨⟨In.map (fun C => if C.toNat < 32 ∨ C.toNat = 127 then '?' else C),
    rfl, ?_⟩, ?_, ?_⟩
  · by_cases hIn : In = []
    · subst hIn
      simp [SanitizeForLog]
    · rw [SanitizeForLog_ne In hIn, SanitizeLoop_eq_map, hstep]
      rfl
  · intro C hmem
    by_cases hIn : In = []
    · subst hIn
      cases hmem
    · rw [SanitizeForLog_ne In hIn, SanitizeLoop_eq_map] at hmem
      have hmap : ∀ D ∈ In.map SanitizeCharStep,
          ¬(D.toNat < 32 ∨ D.toNat = 127) := by
        intro D hd
        obtain ⟨E, _, hE⟩ := List.mem_map.1 hd
        rw [← hE]
        exact SanitizeCharStep_ok E
      split at hmem
      · rcases List.mem_append.1 hmem with h6 | h6
        · exact hmap C (List.take_subset _ _ h6)
        · exact TruncatedMarker_ok C h6
      · exact hmap C hmem
  · by_cases hIn : In = []
    · subst hIn
      simp [SanitizeForLog]
    · rw [SanitizeForLog_ne In hIn]
      split
      · next hlong =>
        rw [List.length_append, List.length_take]
        have hm : TruncatedMarker.length = 11 := rfl
        omega
      · next hshort =>
        omega

/-- Witness for C9: the concrete input holding a letter and the BEL
control character sanitizes to the letter and a question mark, and the
question mark is not a control character. -/
theorem claim_C9_sanitize_witness :
    SanitizeForLog ['a', Char.ofNat 7] = ['a', '?']
    ∧ Char.ofNat 7 ∈ (['a', Char.ofNat 7] : List Char)
    ∧ ¬(('?').toNat < 32 ∨ ('?').toNat = 127) :=
  ⟨by decide, by decide,
    (claim_C9_sanitize ['a', Char.ofNat 7]).2.1 '?' (by decide)⟩

/-- Claim C10 counterexample: with an editor present but no editor world
context and an empty command list, ExecuteEditorCommands returns false
even though every non-empty command (vacuously) executed successfully,
so the unconditional "returns true if and only if every non-empty
command was executed successfully" fails as stated. -/
theorem claim_C10_counterexample :
    ¬(((ExecuteEditorCommands
          { HasEditor := true, HasWorld := false, Exec := fun _ => true }
          ([] : List String)).1 = true)
      ↔ (∀ Command ∈ ([] : List String), Command ≠ "" →
          ({ HasEditor := true, HasWorld := false,
             Exec := fun _ => true } : EditorContext).Exec Command = true)) := by
  intro h
  have h2 := h.mpr (fun C hmem => absurd hmem (List.not_mem_nil C))
  simp [ExecuteEditorCommands] at h2

/-- Claim C10 (amended): ExecuteEditorCommands fails with "Editor not
available" when no editor exists, fails with "Editor world context not
available" when the editor exists but its world context does not,
silently skips empty strings, and, when both editor and world context
are available, returns true iff every non-empty command is handled,
stopping at the first unhandled non-empty command with an error naming
it (later commands are not reached). -/
theorem claim_C10_exec_commands (Ctx : EditorContext)
    (Commands : List String) :
    (Ctx.HasEditor = false →
      ExecuteEditorCommands Ctx Commands = (false, some "Editor not available"))
    ∧ (Ctx.HasEditor = true → Ctx.HasWorld = false →
      ExecuteEditorCommands Ctx Commands
        = (false, some "Editor world context not available"))
    ∧ (∀ Rest : List String,
      ExecuteEditorCommands Ctx ("" :: Rest) = ExecuteEditorCommands Ctx Rest)
    ∧ (Ctx.HasEditor = true → Ctx.HasWorld = true →
      (((ExecuteEditorCommands Ctx Commands).1 = true) ↔
        ∀ Command ∈ Commands, Command ≠ "" → Ctx.Exec Command = true))
    ∧ (Ctx.HasEditor = true → Ctx.HasWorld = true →
      ∀ Pre Command Post, Commands = Pre ++ Command :: Post →
        (∀ D ∈ Pre, D ≠ "" → Ctx.Exec D = true) →
        Command ≠ "" → Ctx.Exec Command = false →
        ExecuteEditorCommands Ctx Commands
          = (false, some ("Failed to execute command: " ++ Command))) := by
  refine ⟨?_, ?_, ?_, ?_, ?_⟩
  · intro h1
    simp [ExecuteEditorCommands, h1]
  · intro h1 h2
    simp [ExecuteEditorCommands, h1, h2]
  · intro Rest
    unfold ExecuteEditorCommands
    split
    · rfl
    · split
      · rfl
      · simp [ExecuteEditorCommandsLoop]
  · intro h1 h2
    rw [show ExecuteEditorCommands Ctx Commands
        = ExecuteEditorCommandsLoop Ctx Commands by
      simp [ExecuteEditorCommands, h1, h2]]
    exact Loop_true_iff Ctx Commands
  · intro h1 h2 Pre Command Post hcmds hpre hne hfail
    rw [show ExecuteEditorCommands Ctx Commands
        = ExecuteEditorCommandsLoop Ctx Commands by
      simp [ExecuteEditorCommands, h1, h2]]
    rw [hcmds, Loop_skip_prefix Ctx Pre (Command :: Post) hpre,
      Loop_fail_head Ctx Command Post hne hfail]

/-- Witness for C10 (amended): a concrete run with an available editor
and world stops at the unhandled command "bad" and names it, after
skipping an empty string and executing "ok". -/
theorem claim_C10_exec_commands_witness :
    ExecuteEditorCommands
        { HasEditor := true, HasWorld := true,
          Exec := fun C => C != "bad" }
        ["ok", "", "bad", "later"]
      = (false, some ("Failed to execute command: " ++ "bad")) :=
  (claim_C10_exec_commands
      { HasEditor := true, HasWorld := true, Exec := fun C => C != "bad" }
      ["ok", "", "bad", "later"]).2.2.2.2 rfl rfl ["ok", ""] "bad" ["later"]
    rfl (by decide) (by decide) (by decide)

end McpBridge
